import Mathlib

/-
  Verification of the SweetHome3D import/export helpers
  (src/Mod/BIM/importers/SH3DCommons.py, importSH3DHelper.py,
  exportSH3DHelper.py).

  Exact-arithmetic code (unit, percent, color conversions, vector
  quantization) is embedded over the rationals; the curved-wall geometry
  is embedded over the reals.  Two host helpers that the importer calls
  (DraftVecUtils.angle and DraftGeomUtils.circleFrom2PointsRadius) are
  not part of the four source files; they are modelled from the spec and
  marked as such.
-/

namespace SH3D

/-- Scale constant from SH3DCommons.py: SweetHome3D is in cm while the host
is in mm, FACTOR = 10. -/
def FACTOR : ℚ := 10

/-- Fixed quantization tolerance from SH3DCommons.py, TOLERANCE = 0.1. -/
def TOLERANCE : ℚ := 1 / 10

/-- Embedding of ang_sh2fc: SweetHome angles are clockwise positive, the host
is anti-clockwise positive, so the angle is negated. -/
def ang_sh2fc (angle : ℚ) : ℚ := -angle

/-- Embedding of dim_fc2sh: host dimension (mm) to SweetHome dimension (cm),
division by FACTOR. -/
def dim_fc2sh (dimension : ℚ) : ℚ := dimension / FACTOR

/-- Embedding of dim_sh2fc: SweetHome dimension (cm) to host dimension (mm),
multiplication by FACTOR. -/
def dim_sh2fc (dimension : ℚ) : ℚ := dimension * FACTOR

/-- A 3-d vector with exact rational coordinates, standing for the host
Vector objects handled by SH3DCommons.py. -/
structure Vec where
  x : ℚ
  y : ℚ
  z : ℚ
deriving DecidableEq

/-- Embedding of coord_fc2sh: divide by FACTOR and flip the y axis. -/
def coord_fc2sh (v : Vec) : Vec := ⟨v.x / FACTOR, -v.y / FACTOR, v.z / FACTOR⟩

/-- Embedding of coord_sh2fc: multiply by FACTOR and flip the y axis. -/
def coord_sh2fc (v : Vec) : Vec := ⟨v.x * FACTOR, -v.y * FACTOR, v.z * FACTOR⟩

/-- Round-half-to-even of a rational to an integer, the rounding used by the
Python builtin round(). -/
def rhe (q : ℚ) : ℤ :=
  let f := ⌊q⌋
  let r := q - f
  if r < 1 / 2 then f
  else if 1 / 2 < r then f + 1
  else if 2 ∣ f then f else f + 1

/-- Rounding of a rational to one decimal place, round-half-to-even: the
Python expression round(v, 1).  hash_vector computes the digit count as
int(-log10(TOLERANCE)) which evaluates to 1 for TOLERANCE = 0.1. -/
def pyRound1 (q : ℚ) : ℚ := (rhe (q * 10) : ℚ) / 10

/-- Embedding of hash_vector: each coordinate is rounded to the tolerance
(one decimal place) and the rounded triple is the dictionary key.  Python
then applies the builtin hash to this triple; two triples are the same
dictionary key exactly when they are equal, so the triple itself is the
faithful model of the key. -/
def hash_vector (v : Vec) : ℚ × ℚ × ℚ := (pyRound1 v.x, pyRound1 v.y, pyRound1 v.z)

/-- Truncation toward zero of a rational to an integer, the Python builtin
int() applied to a float. -/
def pyInt (q : ℚ) : ℤ := if 0 ≤ q then ⌊q⌋ else ⌈q⌉

/-- Embedding of percent_fc2sh: host percent (0 to 100) to SweetHome percent
(0 to 1), division by 100. -/
def percent_fc2sh (percent : ℚ) : ℚ := percent / 100

/-- Embedding of percent_sh2fc: SweetHome percent (0 to 1) to host percent
(0 to 100): int(float(percent) * 100), truncation included. -/
def percent_sh2fc (percent : ℚ) : ℤ := pyInt (percent * 100)

/-- Value of a single hexadecimal digit character, as accepted by the Python
builtin int(s, 16). -/
def hexDigitVal? (c : Char) : Option ℕ :=
  if '0' ≤ c ∧ c ≤ '9' then some (c.toNat - '0'.toNat)
  else if 'a' ≤ c ∧ c ≤ 'f' then some (c.toNat - 'a'.toNat + 10)
  else if 'A' ≤ c ∧ c ≤ 'F' then some (c.toNat - 'A'.toNat + 10)
  else none

/-- Embedding of the Python builtin int(s, 16) on a plain digit string:
none (a ValueError) on the empty string or on any non-hexadecimal
character. -/
def parseHex? (s : List Char) : Option ℕ :=
  if s.isEmpty then none
  else s.foldl (fun acc c => acc.bind (fun n => (hexDigitVal? c).map (fun d => 16 * n + d))) (some 0)

/-- Input values accepted by color_sh2fc: a string (the hex code), a list or
tuple (returned unchanged), or a value of any other type (assertion
failure). -/
inductive SHColorIn where
  | hex : List Char → SHColorIn
  | tup : List ℚ → SHColorIn
  | other : SHColorIn

/-- Result values of color_sh2fc: either the untouched list/tuple input or
the parsed (red, green, blue, alpha) integer quadruple. -/
inductive FCColorOut where
  | passthrough : List ℚ → FCColorOut
  | rgba : ℕ → ℕ → ℕ → ℕ → FCColorOut
deriving DecidableEq

/-- Embedding of color_sh2fc: a list or tuple is returned as is; a non-string
otherwise asserts; a string is sliced at offset 0 (length 6) or 2
(otherwise), the three color channels are parsed from the slices after the
offset and the alpha channel from the slice before it.  Any slice the Python
int(s, 16) rejects, in particular the empty alpha slice of a 6-digit code,
surfaces as an error. -/
def color_sh2fc (hexcode : SHColorIn) : Except String FCColorOut :=
  match hexcode with
  | .tup t => .ok (.passthrough t)
  | .other => .error "Invalid type when calling color_sh2fc"
  | .hex s =>
    let offset := if s.length = 6 then 0 else 2
    match parseHex? ((s.drop offset).take 2),
          parseHex? ((s.drop (offset + 2)).take 2),
          parseHex? ((s.drop (offset + 4)).take 2),
          parseHex? (s.take offset) with
    | some r, some g, some b, some a => .ok (.rgba r g b a)
    | _, _, _, _ => .error "ValueError in int conversion"

/-- Uppercase hexadecimal digit character for a value below 16, as produced
by the Python format specifier X. -/
def hexDigitChar (n : ℕ) : Char :=
  if n = 0 then '0' else if n = 1 then '1' else if n = 2 then '2'
  else if n = 3 then '3' else if n = 4 then '4' else if n = 5 then '5'
  else if n = 6 then '6' else if n = 7 then '7' else if n = 8 then '8'
  else if n = 9 then '9' else if n = 10 then 'A' else if n = 11 then 'B'
  else if n = 12 then 'C' else if n = 13 then 'D' else if n = 14 then 'E'
  else 'F'

/-- Hexadecimal digit expansion helper, most significant digit first; the
fuel bounds the digit count (16 digits cover every value involved). -/
def natToHexAux : ℕ → ℕ → List Char → List Char
  | 0, _, acc => acc
  | _ + 1, 0, acc => acc
  | fuel + 1, n, acc => natToHexAux fuel (n / 16) (hexDigitChar (n % 16) :: acc)

/-- Uppercase hexadecimal digits of a natural number, no padding, as produced
by the Python format specifier X. -/
def natToHex (n : ℕ) : List Char := if n = 0 then ['0'] else natToHexAux 16 n []

/-- Embedding of the Python format expression on a signed value with minimum
width w and zero padding (the 02X and 08X format specifiers). -/
def fmtHex (w : ℕ) (n : ℤ) : List Char :=
  if n < 0 then '-' :: (List.replicate (w - 1 - (natToHex n.natAbs).length) '0' ++ natToHex n.natAbs)
  else List.replicate (w - (natToHex n.toNat).length) '0' ++ natToHex n.toNat

/-- Input values accepted by color_fc2sh: a list or tuple of floats, a packed
integer, or a value of any other type (assertion failure). -/
inductive FCColorIn where
  | chans : List ℚ → FCColorIn
  | packed : ℤ → FCColorIn
  | other : FCColorIn

/-- Embedding of color_fc2sh: a tuple is formatted channel by channel as
round(255 * f) in two-or-more hex digits, an int as eight hex digits; the
slice from position 6 to 8 (the alpha of a well-formed 8-digit code) is then
moved in front of the slice from 0 to 6. -/
def color_fc2sh (color : FCColorIn) : Except String (List Char) :=
  match color with
  | .chans fs =>
    let hexcode := (fs.map (fun f => fmtHex 2 (rhe (255 * f)))).flatten
    .ok (((hexcode.drop 6).take 2) ++ hexcode.take 6)
  | .packed n =>
    let hexcode := fmtHex 8 n
    .ok (((hexcode.drop 6).take 2) ++ hexcode.take 6)
  | .other => .error "Invalid type when calling color_fc2sh"

/-- The host color produced by color_sh2fc, fed back to color_fc2sh the way
the exporter hands host colors over: the rgba quadruple becomes a tuple of
four numbers. -/
def fcOutToIn : FCColorOut → FCColorIn
  | .passthrough t => .chans t
  | .rgba r g b a => .chans [(r : ℚ), (g : ℚ), (b : ℚ), (a : ℚ)]

/-- Round trip of a SweetHome color string through color_sh2fc and back
through color_fc2sh. -/
def color_roundtrip (s : List Char) : Except String (List Char) :=
  (color_sh2fc (SHColorIn.hex s)).bind (fun o => color_fc2sh (fcOutToIn o))

/-- True exactly when an Except value is an error. -/
def exceptIsError {ε α : Type} (e : Except ε α) : Bool :=
  match e with
  | .error _ => true
  | .ok _ => false

/-
  Embedding of the element-stream machinery of importSH3DHelper.py:
  XML elements, sibling-wall resolution, floor resolution and the
  per-element error boundary of SH3DImporter._import_elements.
-/

/-- An XML element as the importer consumes it: a tag and its attribute
list.  Attribute lookup returns the first binding, as ElementTree get
does for the (unique) attributes of an element. -/
structure XElem where
  tag : String
  attrs : List (String × String)
deriving DecidableEq

/-- Attribute lookup, ElementTree Element.get with default None. -/
def XElem.get (e : XElem) (name : String) : Option String :=
  (e.attrs.find? (fun p => p.1 == name)).map (fun p => p.2)

/-- Embedding of the XPath query wall[@id=sid] used by
WallHandler._get_sibling_wall: the first wall child of the parent carrying
the requested id. -/
def findWallById (parent : List XElem) (sid : String) : Option XElem :=
  parent.find? (fun e => e.tag == "wall" && e.get "id" == some sid)

/-- Embedding of WallHandler._get_sibling_wall: no declared sibling id (or a
falsy empty one) resolves to none; a declared id must name a wall of the
same parent, otherwise a ValueError is raised. -/
def get_sibling_wall (parent : List XElem) (wall : XElem) (attrName : String) :
    Except String (Option XElem) :=
  match wall.get attrName with
  | none => .ok none
  | some sid =>
    if sid = "" then .ok none
    else
      match findWallById parent sid with
      | some w => .ok (some w)
      | none => .error "Invalid SweetHome3D file: wall references an unknown wall"

/-- State of the importer floor registry: the optional default floor created
when the file declares no levels, and the id-to-floor mapping filled by the
level handler.  Floors are identified by their label. -/
structure ImporterFloors where
  default_floor : Option String
  floors : List (String × String)
deriving DecidableEq

/-- Python truthiness of an optional string: None and the empty string are
falsy. -/
def py_truthy (o : Option String) : Bool :=
  match o with
  | none => false
  | some s => !(s == "")

/-- Embedding of SH3DImporter.get_floor: if the default floor exists or the
level id is falsy, the default floor (possibly None) is returned; otherwise
the floor registered under the id, with None when absent. -/
def get_floor (s : ImporterFloors) (level_id : Option String) : Option String :=
  if s.default_floor.isSome || !(py_truthy level_id) then s.default_floor
  else
    match level_id with
    | some lid => (s.floors.find? (fun p => p.1 == lid)).map (fun p => p.2)
    | none => s.default_floor

/-- Embedding of the floor lookup done at the top of the room and wall
handlers: get_floor on the level attribute followed by the assertion that a
floor was found; a missing floor is an error for the element. -/
def floor_resolution (s : ImporterFloors) (elm : XElem) : Except String String :=
  match get_floor s (elm.get "level") with
  | some f => .ok f
  | none => .error "Missing floor"

/-- Embedding of the sibling-resolving part of WallHandler.process: resolve
the floor (asserted present), then the wallAtStart and wallAtEnd siblings;
any raised error propagates out of the element handler.  The solid
construction that follows is delegated to the host geometry kernel and is
out of scope. -/
def wall_process (s : ImporterFloors) (parent : List XElem) (_i : ℕ) (elm : XElem) :
    Except String Unit := do
  let _ ← floor_resolution s elm
  let _ ← get_sibling_wall parent elm "wallAtStart"
  let _ ← get_sibling_wall parent elm "wallAtEnd"
  pure ()

/-- A log line produced by the per-element exception handler of
SH3DImporter._import_elements: the element kind, its index in the pass and
its id (falling back to its name attribute). -/
structure LogEntry where
  kind : String
  idx : ℕ
  ident : Option String
deriving DecidableEq

/-- Outcome of the guarded processing of one element inside
SH3DImporter._import_elements: none when the handler succeeded, otherwise
the log entry recorded by the except branch. -/
def element_outcome (tag : String) (handler : ℕ → XElem → Except String Unit)
    (i : ℕ) (e : XElem) : Option LogEntry :=
  match handler i e with
  | .ok _ => none
  | .error _ => some ⟨tag, i, (e.get "id").orElse (fun _ => e.get "name")⟩

/-- Index-threading recursion behind import_elements: each element of the
pass is handed to the guarded handler in order, with its running index. -/
def import_elements_from (tag : String) (handler : ℕ → XElem → Except String Unit) :
    ℕ → List XElem → List (Option LogEntry)
  | _, [] => []
  | i, e :: rest =>
    element_outcome tag handler i e :: import_elements_from tag handler (i + 1) rest

/-- Embedding of SH3DImporter._import_elements: every element of the pass is
processed behind a try/except boundary; an exception is logged with the
element kind, index and id and the pass moves on to the next element. -/
def import_elements (tag : String) (handler : ℕ → XElem → Except String Unit)
    (elems : List XElem) : List (Option LogEntry) :=
  import_elements_from tag handler 0 elems

/-- The wall elements of a home, the list SH3DImporter._import_elements
iterates for the wall pass (parent.findall of the wall tag). -/
def walls_of (home : List XElem) : List XElem :=
  home.filter (fun e => e.tag == "wall")

/-
  Embedding of the degenerate-sweep recovery loop of
  WallHandler._create_wall.  The geometry kernel (Part::Sweep and shape
  validity) is an external collaborator: it enters as two oracles giving,
  for each number of one-degree end-section rotations already applied,
  whether the swept shape is null and whether it is valid.
-/

/-- Fuel-indexed unfolding of the while loop of WallHandler._create_wall:
while the sweep is null or invalid and the adjustment counter is at most
45, rotate the end section once more and increment the counter.  The fuel
only needs to dominate the loop bound; 47 steps always suffice. -/
def adjust_from (isNull isValid : ℕ → Bool) : ℕ → ℕ → ℕ
  | 0, a => a
  | fuel + 1, a =>
    if (isNull a = true ∨ isValid a = false) ∧ a ≤ 45 then
      adjust_from isNull isValid fuel (a + 1)
    else a

/-- Number of one-degree rotations of the end cross-section performed by the
recovery loop, starting from an un-rotated section. -/
def final_adjustment (isNull isValid : ℕ → Bool) : ℕ :=
  adjust_from isNull isValid 47 0

/-- Embedding of the failure report that follows the loop: the un-buildable
message is only logged when the final counter value equals max_adjustment,
which is 45. -/
def reports_failed (isNull isValid : ℕ → Bool) : Bool :=
  final_adjustment isNull isValid == 45

/-- Embedding of the assertion that closes WallHandler._create_wall: the
swept shape must be null or valid at the final adjustment; when it is
neither, the AssertionError propagates to the per-element boundary of
_import_elements. -/
def sweep_assert_holds (isNull isValid : ℕ → Bool) : Bool :=
  isNull (final_adjustment isNull isValid) || isValid (final_adjustment isNull isValid)

/-
  Real-number embedding of the curved-wall geometry of
  WallHandler._get_wall_details and WallHandler._get_normal_angles.
-/

/-- A 3-d vector with real coordinates, for the geometric computations of
the wall handler. -/
structure RVec where
  x : ℝ
  y : ℝ
  z : ℝ

namespace RVec

/-- Componentwise vector sum. -/
noncomputable def add (u v : RVec) : RVec := ⟨u.x + v.x, u.y + v.y, u.z + v.z⟩

/-- Componentwise vector difference. -/
noncomputable def sub (u v : RVec) : RVec := ⟨u.x - v.x, u.y - v.y, u.z - v.z⟩

/-- Scalar multiple of a vector. -/
noncomputable def smul (c : ℝ) (v : RVec) : RVec := ⟨c * v.x, c * v.y, c * v.z⟩

/-- Euclidean inner product. -/
noncomputable def dot (u v : RVec) : ℝ := u.x * v.x + u.y * v.y + u.z * v.z

/-- Cross product. -/
noncomputable def cross (u v : RVec) : RVec :=
  ⟨u.y * v.z - u.z * v.y, u.z * v.x - u.x * v.z, u.x * v.y - u.y * v.x⟩

/-- Euclidean length. -/
noncomputable def length (v : RVec) : ℝ := Real.sqrt (v.dot v)

/-- Unit vector in the direction of v, the host normalize operation. -/
noncomputable def normalize (v : RVec) : RVec := smul (1 / v.length) v

end RVec

/-- The unit x vector X_NORM of importSH3DHelper.py. -/
noncomputable def xNorm : RVec := ⟨1, 0, 0⟩

/-- The unit z vector Z_NORM of importSH3DHelper.py. -/
noncomputable def zNorm : RVec := ⟨0, 0, 1⟩

/-- Distance between two points, DraftVecUtils.dist. -/
noncomputable def rdist (u v : RVec) : ℝ := (RVec.sub u v).length

/-- Radian-to-degree conversion, math.degrees. -/
noncomputable def degrees (a : ℝ) : ℝ := a * 180 / Real.pi

/-- Clamping of a quotient of dot products into the domain of arccos. -/
noncomputable def clamp1 (x : ℝ) : ℝ := max (-1) (min 1 x)

/-- Modelled from the spec: the signed angle between two vectors about a
normal axis.  The host function DraftVecUtils.angle consumed by
WallHandler._get_normal_angles is not among the four source files; per the
spec the selection compares the sign of the signed angle from start to end
measured through the center about the vertical axis, so the angle is the
arccos of the normalized dot product carrying the sign of the component of
the cross product along the normal, and 0 for degenerate inputs. -/
noncomputable def vangle (u v n : RVec) : ℝ :=
  if u.length * v.length = 0 then 0
  else
    let ang := Real.arccos (clamp1 (u.dot v / (u.length * v.length)))
    if 0 ≤ n.dot (u.cross v) then ang else -ang

/-- Modelled from the spec: the two mirrored centers of the circles of a
given radius through two distinct points.  The host function
DraftGeomUtils.circleFrom2PointsRadius consumed by
WallHandler._get_normal_angles is not among the four source files; per the
spec two such circles exist with mirrored centers, each center lying on the
perpendicular of the chord through its midpoint at distance
sqrt(radius^2 - (chord/2)^2), the perpendicular taken horizontally (the
cross product of the chord direction with the vertical axis). -/
noncomputable def circle_centers (p1 p2 : RVec) (radius : ℝ) : RVec × RVec :=
  let mid := RVec.smul (1 / 2) (RVec.add p1 p2)
  let d := rdist p1 p2
  let dir := RVec.smul (1 / d) (RVec.sub p2 p1)
  let perp := RVec.normalize (RVec.cross dir zNorm)
  let h := Real.sqrt (radius ^ 2 - (d / 2) ^ 2)
  (RVec.add mid (RVec.smul h perp), RVec.sub mid (RVec.smul h perp))

/-- The per-wall tuple returned by WallHandler._get_wall_details: transformed
start and end points, thickness, heights at both ends and the (host
convention, radian) arc extent. -/
structure WallDetails where
  wstart : RVec
  wend : RVec
  thickness : ℝ
  height_start : ℝ
  height_end : ℝ
  arc_extent : ℝ

/-- Real-coordinate version of ang_sh2fc. -/
noncomputable def ang_sh2fcR (angle : ℝ) : ℝ := -angle

/-- Real-coordinate version of dim_fc2sh. -/
noncomputable def dim_fc2shR (dimension : ℝ) : ℝ := dimension / 10

/-- Real-coordinate version of dim_sh2fc. -/
noncomputable def dim_sh2fcR (dimension : ℝ) : ℝ := dimension * 10

/-- Real-coordinate version of coord_sh2fc. -/
noncomputable def coord_sh2fcR (v : RVec) : RVec := ⟨v.x * 10, -v.y * 10, v.z * 10⟩

/-- Embedding of WallHandler._get_wall_details on an element whose
coordinate, thickness, arc extent and height attributes are present (the
absent-attribute defaults are resolved by the caller): the endpoints are
lifted to the floor elevation and converted to host coordinates, the
dimensions scaled and the arc extent negated. -/
noncomputable def get_wall_details (floor_z xStart yStart xEnd yEnd thickness arcExtent
    height heightAtEnd : ℝ) : WallDetails :=
  let z := dim_fc2shR floor_z
  { wstart := coord_sh2fcR ⟨xStart, yStart, z⟩
    wend := coord_sh2fcR ⟨xEnd, yEnd, z⟩
    thickness := dim_sh2fcR thickness
    height_start := dim_sh2fcR height
    height_end := dim_sh2fcR heightAtEnd
    arc_extent := ang_sh2fcR arcExtent }

/-- Result record of WallHandler._get_normal_angles: the two normal angles,
the angle-inversion flag, and the center and radius of the spine circle
(none for a straight wall). -/
structure NormalAngles where
  angle_start : ℝ
  angle_end : ℝ
  invert_angle : Bool
  center : Option RVec
  radius : Option ℝ

/-- Embedding of WallHandler._get_normal_angles.  Straight wall: both normal
angles are 90 degrees minus the direction angle.  Curved wall: the radius is
the absolute value of chord over twice the sine of half the arc extent; of
the two mirrored circle centers the first is kept when the signed angle from
start to end about the vertical axis has the sign of the arc extent,
otherwise the second is kept and the inversion flag is set; the normal
angles are the angles of the radius vectors at the endpoints. -/
noncomputable def get_normal_angles (w : WallDetails) : NormalAngles :=
  if w.arc_extent = 0 then
    { angle_start := 90 - degrees (vangle (RVec.sub w.wend w.wstart) xNorm zNorm)
      angle_end := 90 - degrees (vangle (RVec.sub w.wend w.wstart) xNorm zNorm)
      invert_angle := false
      center := none
      radius := none }
  else
    let chord := rdist w.wstart w.wend
    let radius := |chord / (2 * Real.sin (w.arc_extent / 2))|
    let cs := circle_centers w.wstart w.wend radius
    if Real.sign w.arc_extent ≠
        Real.sign (vangle (RVec.sub w.wstart cs.1) (RVec.sub w.wend cs.1) zNorm) then
      { angle_start := degrees (vangle xNorm (RVec.sub w.wstart cs.2) zNorm)
        angle_end := degrees (vangle xNorm (RVec.sub w.wend cs.2) zNorm)
        invert_angle := true
        center := some cs.2
        radius := some radius }
    else
      { angle_start := degrees (vangle xNorm (RVec.sub w.wstart cs.1) zNorm)
        angle_end := degrees (vangle xNorm (RVec.sub w.wend cs.1) zNorm)
        invert_angle := false
        center := some cs.1
        radius := some radius }

/-- The center kept by get_normal_angles, defaulting to the origin for a
straight wall. -/
noncomputable def selected_center (w : WallDetails) : RVec :=
  ((get_normal_angles w).center).getD ⟨0, 0, 0⟩

/-- The wall of the spec acceptance example: source start point (0,0), end
point (100,0), arc extent pi over 2, on a floor at elevation 0, with
thickness 10 and height 250. -/
noncomputable def example_wall : WallDetails :=
  get_wall_details 0 0 0 100 0 10 (Real.pi / 2) 250 250

end SH3D

deriving instance DecidableEq for Except

namespace SH3D

/-
  Helper lemmas.
-/

/-- Round-half-to-even lands within one half of its argument. -/
lemma rhe_sub_le (x : ℚ) : |(rhe x : ℚ) - x| ≤ 1 / 2 := by
  have h0 : (⌊x⌋ : ℚ) ≤ x := Int.floor_le x
  have h1 : x < ⌊x⌋ + 1 := Int.lt_floor_add_one x
  simp only [rhe]
  split_ifs with c1 c2 c3
  · rw [abs_le]; constructor <;> linarith
  · push_cast
    rw [abs_le]; constructor <;> linarith
  · rw [abs_le]
    have hr : x - ⌊x⌋ = 1 / 2 := le_antisymm (not_lt.mp c2) (not_lt.mp c1)
    constructor <;> linarith
  · push_cast
    rw [abs_le]
    have hr : x - ⌊x⌋ = 1 / 2 := le_antisymm (not_lt.mp c2) (not_lt.mp c1)
    constructor <;> linarith

/-- Arguments less than one apart round to integers at most one apart. -/
lemma rhe_close (x y : ℚ) (h : |x - y| < 1) : |rhe x - rhe y| ≤ 1 := by
  have hx := rhe_sub_le x
  have hy := rhe_sub_le y
  have h2 : |(rhe x : ℚ) - rhe y| < 2 := by
    have e : (rhe x : ℚ) - rhe y = ((rhe x : ℚ) - x) + (x - y) + (y - (rhe y : ℚ)) := by
      ring
    calc |(rhe x : ℚ) - rhe y|
        ≤ |((rhe x : ℚ) - x) + (x - y)| + |y - (rhe y : ℚ)| := by rw [e]; exact abs_add _ _
      _ ≤ |(rhe x : ℚ) - x| + |x - y| + |y - (rhe y : ℚ)| := by
            have := abs_add ((rhe x : ℚ) - x) (x - y)
            linarith
      _ < 2 := by rw [abs_sub_comm y ((rhe y : ℚ))]; linarith
  have h3 : ((|rhe x - rhe y| : ℤ) : ℚ) < 2 := by push_cast; exact h2
  have h4 : |rhe x - rhe y| < 2 := by exact_mod_cast h3
  omega

/-- Coordinates less than the tolerance apart quantize to values at most one
tolerance step apart. -/
lemma pyRound1_close (a b : ℚ) (h : |a - b| < 1 / 10) :
    |pyRound1 a - pyRound1 b| ≤ 1 / 10 := by
  have h10 : |a * 10 - b * 10| < 1 := by
    have e : a * 10 - b * 10 = (a - b) * 10 := by ring
    rw [e, abs_mul]
    rw [show |(10 : ℚ)| = 10 by norm_num]
    linarith
  have hc := rhe_close (a * 10) (b * 10) h10
  have hc2 : ((|rhe (a * 10) - rhe (b * 10)| : ℤ) : ℚ) ≤ 1 := by exact_mod_cast hc
  unfold pyRound1
  have e : (rhe (a * 10) : ℚ) / 10 - (rhe (b * 10) : ℚ) / 10
      = ((rhe (a * 10) : ℚ) - (rhe (b * 10) : ℚ)) / 10 := by ring
  rw [e, abs_div]
  rw [show |(10 : ℚ)| = 10 by norm_num]
  rw [div_le_div_iff₀ (by norm_num) (by norm_num)]
  push_cast at hc2 ⊢
  linarith

/-- Length preservation of the per-element processing: one outcome per
element of the pass. -/
lemma import_elements_from_length (tag : String) (handler : ℕ → XElem → Except String Unit)
    (l : List XElem) : ∀ i : ℕ, (import_elements_from tag handler i l).length = l.length := by
  induction l with
  | nil => intro i; rfl
  | cons e rest ih => intro i; simp [import_elements_from, ih]

/-- Elementwise description of the per-element processing: the outcome at
position j is the guarded handler applied to the element at position j with
its running index. -/
lemma import_elements_from_get? (tag : String) (handler : ℕ → XElem → Except String Unit) :
    ∀ (l : List XElem) (i j : ℕ),
      (import_elements_from tag handler i l).get? j
        = (l.get? j).map (fun e => element_outcome tag handler (i + j) e) := by
  intro l
  induction l with
  | nil => intro i j; rfl
  | cons e rest ih =>
    intro i j
    cases j with
    | zero => simp [import_elements_from]
    | succ j =>
      simp only [import_elements_from, List.get?_cons_succ, ih (i + 1) j]
      have : i + 1 + j = i + (j + 1) := by omega
      rw [this]

/-
  Claim theorems.
-/

/-- Claim C2: the claim says that converting any 6- or 8-digit hex color
string with color_sh2fc and back with color_fc2sh reproduces it up to case.
The code violates this: color_sh2fc yields integer channels in 0..255 while
color_fc2sh scales tuple entries by 255 as if they were floats in 0..1, so
the 8-digit string FF102030 round-trips to 02FF01FE, and a 6-digit string
already fails inside color_sh2fc. -/
theorem C2_color_roundtrip_fails :
    color_roundtrip ['F', 'F', '1', '0', '2', '0', '3', '0']
        = Except.ok ['0', '2', 'F', 'F', '0', '1', 'F', 'E']
    ∧ List.map Char.toUpper ['0', '2', 'F', 'F', '0', '1', 'F', 'E']
        ≠ List.map Char.toUpper ['F', 'F', '1', '0', '2', '0', '3', '0']
    ∧ exceptIsError (color_roundtrip ['F', 'F', '0', '0', '0', '0']) = true := by
  refine ⟨?_, by decide, by decide⟩
  have hsh : color_sh2fc (SHColorIn.hex ['F', 'F', '1', '0', '2', '0', '3', '0'])
      = Except.ok (FCColorOut.rgba 16 32 48 255) := by decide
  have h1 : rhe (255 * ((16 : ℕ) : ℚ)) = 4080 := by norm_num [rhe]
  have h2 : rhe (255 * ((32 : ℕ) : ℚ)) = 8160 := by norm_num [rhe]
  have h3 : rhe (255 * ((48 : ℕ) : ℚ)) = 12240 := by norm_num [rhe]
  have h4 : rhe (255 * ((255 : ℕ) : ℚ)) = 65025 := by norm_num [rhe]
  rw [color_roundtrip, hsh]
  show color_fc2sh (fcOutToIn (FCColorOut.rgba 16 32 48 255)) = _
  simp only [color_fc2sh, fcOutToIn, List.map, h1, h2, h3, h4]
  decide

/-- Claim C3: the claim (and the docstring of get_floor) says the single
floor is returned when exactly one floor exists or the level id is absent.
The code instead returns the default floor, which is None whenever any
level element was declared: with one declared level and an absent level id
the lookup yields None and the element fails with the missing-floor error.
The by-id path and the synthesized-default-floor path do work, as the last
two conjuncts record. -/
theorem C3_single_floor_not_returned :
    get_floor ⟨none, [("level1", "floor1")]⟩ none = none
    ∧ ([("level1", "floor1")] : List (String × String)).length = 1
    ∧ floor_resolution ⟨none, [("level1", "floor1")]⟩ ⟨"room", []⟩
        = Except.error "Missing floor"
    ∧ get_floor ⟨none, [("level1", "floor1")]⟩ (some "level1") = some "floor1"
    ∧ get_floor ⟨some "Level", []⟩ (some "whatever") = some "Level" := by
  decide

/-- Claim C4: a wall declaring a sibling id that no wall of the file
carries raises inside the handler, and the error is caught at the
per-element boundary of the import pass: the outcome at that index is the
log entry with the element kind, pass index and id, the pass still yields
one outcome per element, and every element of the pass is processed
independently of the failure. -/
theorem C4_missing_sibling_isolated (s : ImporterFloors) (home : List XElem)
    (k : ℕ) (w : XElem) (sid : String)
    (hw : (walls_of home).get? k = some w)
    (hfl : (get_floor s (w.get "level")).isSome = true)
    (hsid : w.get "wallAtStart" = some sid)
    (hne : sid ≠ "")
    (hmiss : findWallById home sid = none) :
    (import_elements "wall" (wall_process s home) (walls_of home)).get? k
        = some (some ⟨"wall", k, (w.get "id").orElse (fun _ => w.get "name")⟩)
    ∧ (import_elements "wall" (wall_process s home) (walls_of home)).length
        = (walls_of home).length
    ∧ ∀ j e, (walls_of home).get? j = some e →
        (import_elements "wall" (wall_process s home) (walls_of home)).get? j
          = some (element_outcome "wall" (wall_process s home) j e) := by
  have hall : ∀ j e, (walls_of home).get? j = some e →
      (import_elements "wall" (wall_process s home) (walls_of home)).get? j
        = some (element_outcome "wall" (wall_process s home) j e) := by
    intro j e hje
    rw [import_elements, import_elements_from_get?, hje]
    simp
  refine ⟨?_, import_elements_from_length _ _ _ 0, hall⟩
  rw [hall k w hw]
  obtain ⟨f, hf⟩ := Option.isSome_iff_exists.mp hfl
  have hfloor : floor_resolution s w = Except.ok f := by
    unfold floor_resolution
    rw [hf]
  have hsib : get_sibling_wall home w "wallAtStart"
      = Except.error "Invalid SweetHome3D file: wall references an unknown wall" := by
    unfold get_sibling_wall
    rw [hsid]
    simp only [if_neg hne, hmiss]
  have hwp : wall_process s home k w
      = Except.error "Invalid SweetHome3D file: wall references an unknown wall" := by
    unfold wall_process
    rw [hfloor, hsib]
    rfl
  unfold element_outcome
  rw [hwp]

/-- Claim C4, witness: a home with two walls, the first declaring the
missing sibling id w99; the first outcome is the logged failure. -/
theorem C4_missing_sibling_isolated_witness :
    ((walls_of [⟨"wall", [("id", "w1"), ("wallAtStart", "w99")]⟩,
        ⟨"wall", [("id", "w2")]⟩]).get? 0
      = some ⟨"wall", [("id", "w1"), ("wallAtStart", "w99")]⟩)
    ∧ (import_elements "wall"
        (wall_process ⟨some "Level", []⟩
          [⟨"wall", [("id", "w1"), ("wallAtStart", "w99")]⟩, ⟨"wall", [("id", "w2")]⟩])
        (walls_of [⟨"wall", [("id", "w1"), ("wallAtStart", "w99")]⟩,
          ⟨"wall", [("id", "w2")]⟩])).get? 0
      = some (some ⟨"wall", 0, some "w1"⟩) := by
  refine ⟨by decide, ?_⟩
  have h := C4_missing_sibling_isolated ⟨some "Level", []⟩
    [⟨"wall", [("id", "w1"), ("wallAtStart", "w99")]⟩, ⟨"wall", [("id", "w2")]⟩]
    0 ⟨"wall", [("id", "w1"), ("wallAtStart", "w99")]⟩ "w99"
    (by decide) (by decide) (by decide) (by decide) (by decide)
  exact h.1

/-- Claim C5: the claim says the recovery loop rotates the end section at
most 45 times and reports the wall un-buildable when no attempt succeeds.
The loop guard adjustment at most 45 together with the post-rotation
increment performs 46 rotations on a sweep that never becomes valid, the
failure report compares the final counter with 45 and therefore never
fires on exhaustion, and the closing assertion fails instead (propagating
to the per-element boundary).  The loop does stop as soon as the sweep
becomes valid, as the last conjunct records for validity first reached
after 3 rotations. -/
theorem C5_sweep_recovery_overruns :
    final_adjustment (fun _ => false) (fun _ => false) = 46
    ∧ reports_failed (fun _ => false) (fun _ => false) = false
    ∧ sweep_assert_holds (fun _ => false) (fun _ => false) = false
    ∧ final_adjustment (fun _ => false) (fun k => k == 3) = 3 := by
  decide

/-- Claim C6, counterexample: the points with x coordinates 0.04 and 0.06
differ by 0.02 in every coordinate pair, well below the tolerance 0.1, yet
round to the different quantized keys 0.0 and 0.1, so the claim that any
two points within the tolerance share a key is false. -/
theorem C6_hash_tolerance_cex :
    |(4 / 100 : ℚ) - 6 / 100| < 1 / 10
    ∧ |(0 : ℚ) - 0| < 1 / 10
    ∧ hash_vector ⟨4 / 100, 0, 0⟩ ≠ hash_vector ⟨6 / 100, 0, 0⟩ := by
  refine ⟨by rw [abs_lt]; constructor <;> norm_num, by norm_num, ?_⟩
  have e1 : pyRound1 (4 / 100) = 0 := by norm_num [pyRound1, rhe]
  have e2 : pyRound1 (6 / 100) = 1 / 10 := by norm_num [pyRound1, rhe]
  simp only [hash_vector, e1, e2]
  intro h
  have := congrArg (fun p => p.1) h
  norm_num at this

/-- Claim C6, amended: endpoints whose coordinates each differ by less than
the tolerance 0.1 receive quantized coordinates that agree or sit one 0.1
step apart, and they receive the same hash key exactly when each coordinate
rounds to the same multiple of 0.1; coordinates within the tolerance can
straddle a rounding boundary and land in different keys. -/
theorem C6_hash_quantization_amended (v1 v2 : Vec)
    (hx : |v1.x - v2.x| < 1 / 10) (hy : |v1.y - v2.y| < 1 / 10)
    (hz : |v1.z - v2.z| < 1 / 10) :
    (|pyRound1 v1.x - pyRound1 v2.x| ≤ 1 / 10
      ∧ |pyRound1 v1.y - pyRound1 v2.y| ≤ 1 / 10
      ∧ |pyRound1 v1.z - pyRound1 v2.z| ≤ 1 / 10)
    ∧ (hash_vector v1 = hash_vector v2
        ↔ (pyRound1 v1.x = pyRound1 v2.x ∧ pyRound1 v1.y = pyRound1 v2.y
            ∧ pyRound1 v1.z = pyRound1 v2.z)) := by
  refine ⟨⟨pyRound1_close _ _ hx, pyRound1_close _ _ hy, pyRound1_close _ _ hz⟩, ?_⟩
  unfold hash_vector
  simp [Prod.ext_iff]

/-- Claim C6, witness for the amended theorem at the points with x
coordinates 0 and 0.01. -/
theorem C6_hash_quantization_amended_witness :
    (|(0 : ℚ) - 1 / 100| < 1 / 10)
    ∧ |pyRound1 (0 : ℚ) - pyRound1 (1 / 100 : ℚ)| ≤ 1 / 10 := by
  refine ⟨by rw [abs_lt]; constructor <;> norm_num, ?_⟩
  have h := C6_hash_quantization_amended ⟨0, 0, 0⟩ ⟨1 / 100, 0, 0⟩
    (by rw [abs_lt]; constructor <;> norm_num) (by norm_num) (by norm_num)
  exact h.1.1

/-- Claim C7: converting a length from source to host units with dim_sh2fc
(multiplication by the fixed constant 10) and back with dim_fc2sh (division
by 10) reproduces it exactly, hence within 1e-9. -/
theorem C7_dim_roundtrip :
    ∀ v : ℚ, dim_fc2sh (dim_sh2fc v) = v
      ∧ |dim_fc2sh (dim_sh2fc v) - v| ≤ 1 / 1000000000 := by
  intro v
  have h : dim_fc2sh (dim_sh2fc v) = v := by
    unfold dim_fc2sh dim_sh2fc FACTOR
    field_simp
  exact ⟨h, by rw [h]; norm_num⟩

/-- Claim C8, counterexample: percent_sh2fc truncates with int(), so at the
source value 1/200 it returns 0 rather than 1/2, and the round trip through
percent_fc2sh yields 0 rather than 1/200. -/
theorem C8_percent_truncation_cex :
    ((percent_sh2fc (1 / 200) : ℤ) : ℚ) ≠ (1 / 200) * 100
    ∧ percent_fc2sh ((percent_sh2fc (1 / 200) : ℤ) : ℚ) ≠ 1 / 200 := by
  have h : percent_sh2fc (1 / 200) = 0 := by norm_num [percent_sh2fc, pyInt]
  rw [h]
  norm_num [percent_fc2sh]

/-- Claim C8, amended: for a source percentage in the unit interval,
percent_sh2fc returns the integer truncation (floor) of the value times
100, percent_fc2sh divides by 100, and the round trip reproduces the value
exactly whenever the value times 100 is an integer. -/
theorem C8_percent_truncation_amended (v : ℚ) (h0 : 0 ≤ v) (_h1 : v ≤ 1) :
    percent_sh2fc v = ⌊v * 100⌋
    ∧ ∀ n : ℤ, v * 100 = (n : ℚ) →
        percent_fc2sh ((percent_sh2fc v : ℤ) : ℚ) = v := by
  have hfl : percent_sh2fc v = ⌊v * 100⌋ := by
    unfold percent_sh2fc pyInt
    rw [if_pos (by positivity)]
  refine ⟨hfl, fun n hn => ?_⟩
  rw [hfl, hn, Int.floor_intCast]
  unfold percent_fc2sh
  rw [show (n : ℚ) = v * 100 from hn.symm]
  ring

/-- Claim C8, witness for the amended theorem at the value 1/4. -/
theorem C8_percent_truncation_amended_witness :
    (0 ≤ (1 / 4 : ℚ)) ∧ ((1 / 4 : ℚ) ≤ 1)
    ∧ percent_sh2fc (1 / 4) = ⌊(1 / 4 : ℚ) * 100⌋
    ∧ percent_fc2sh ((percent_sh2fc (1 / 4) : ℤ) : ℚ) = 1 / 4 := by
  have h := C8_percent_truncation_amended (1 / 4) (by norm_num) (by norm_num)
  exact ⟨by norm_num, by norm_num, h.1, h.2 25 (by norm_num)⟩

/-- Claim C9: the claim says a 6-digit hex color string converts without
error with the alpha channel defaulted.  The code computes the alpha as
int of the empty slice before offset 0, and the Python int of an empty
string raises a ValueError, so every 6-digit string fails; the red slice
itself is parseable and 8-digit strings convert fine, which pins the
failure to the empty alpha slice. -/
theorem C9_six_digit_color_error :
    exceptIsError (color_sh2fc (SHColorIn.hex ['F', 'F', '0', '0', '0', '0'])) = true
    ∧ parseHex? [] = none
    ∧ parseHex? ['F', 'F'] = some 255
    ∧ color_sh2fc (SHColorIn.hex ['0', '8', 'F', 'F', '0', '0', '0', '0'])
        = Except.ok (FCColorOut.rgba 255 0 0 8) := by
  decide

/-- Claim C10: a list or tuple argument is returned by color_sh2fc
unchanged, with no validation, conversion or reordering of its entries;
in particular out-of-range and fractional channel values pass through
silently. -/
theorem C10_tuple_passthrough :
    (∀ t : List ℚ, color_sh2fc (SHColorIn.tup t) = Except.ok (FCColorOut.passthrough t))
    ∧ color_sh2fc (SHColorIn.tup [300, -(1 / 2), 7])
        = Except.ok (FCColorOut.passthrough [300, -(1 / 2), 7]) := by
  exact ⟨fun t => rfl, rfl⟩

end SH3D

namespace SH3D

attribute [ext] RVec

lemma radius_formula (w : WallDetails) (h : w.arc_extent ≠ 0) :
    (get_normal_angles w).radius
      = some |rdist w.wstart w.wend / (2 * Real.sin (w.arc_extent / 2))| := by
  unfold get_normal_angles
  rw [if_neg h]
  dsimp only
  split_ifs <;> rfl

lemma clamp1_lt_one {x : ℝ} (h : x < 1) : clamp1 x < 1 := by
  unfold clamp1
  exact max_lt (by norm_num) (lt_of_le_of_lt (min_le_right 1 x) h)

lemma vangle_sign_neg (u v n : RVec) (hll : u.length * v.length ≠ 0)
    (hdp : u.dot v / (u.length * v.length) < 1)
    (hcr : ¬ 0 ≤ n.dot (u.cross v)) : Real.sign (vangle u v n) = -1 := by
  unfold vangle
  rw [if_neg hll]
  dsimp only
  rw [if_neg hcr]
  have h2 : 0 < Real.arccos (clamp1 (u.dot v / (u.length * v.length))) :=
    Real.arccos_pos.mpr (clamp1_lt_one hdp)
  exact Real.sign_of_neg (by linarith)

lemma vangle_sign_pos (u v n : RVec) (hll : u.length * v.length ≠ 0)
    (hdp : u.dot v / (u.length * v.length) < 1)
    (hcr : 0 ≤ n.dot (u.cross v)) : Real.sign (vangle u v n) = 1 := by
  unfold vangle
  rw [if_neg hll]
  dsimp only
  rw [if_pos hcr]
  have h2 : 0 < Real.arccos (clamp1 (u.dot v / (u.length * v.length))) :=
    Real.arccos_pos.mpr (clamp1_lt_one hdp)
  exact Real.sign_of_pos h2

end SH3D

namespace SH3D

lemma rdist_nonneg (s e : RVec) : 0 ≤ rdist s e := Real.sqrt_nonneg _

lemma rdist_sq (s e : RVec) (hz : s.z = e.z) :
    rdist s e ^ 2 = (e.x - s.x) ^ 2 + (e.y - s.y) ^ 2 := by
  unfold rdist RVec.length
  rw [Real.sq_sqrt (by
    simp only [RVec.dot, RVec.sub]
    nlinarith [mul_self_nonneg (s.x - e.x), mul_self_nonneg (s.y - e.y),
      mul_self_nonneg (s.z - e.z)])]
  simp [RVec.dot, RVec.sub]
  rw [hz]
  ring

lemma circle_centers_eq (s e : RVec) (r : ℝ) (hz : s.z = e.z) (hc : rdist s e ≠ 0) :
    circle_centers s e r =
      (⟨(s.x + e.x) / 2 + Real.sqrt (r ^ 2 - (rdist s e / 2) ^ 2) * ((e.y - s.y) / rdist s e),
        (s.y + e.y) / 2 - Real.sqrt (r ^ 2 - (rdist s e / 2) ^ 2) * ((e.x - s.x) / rdist s e),
        s.z⟩,
       ⟨(s.x + e.x) / 2 - Real.sqrt (r ^ 2 - (rdist s e / 2) ^ 2) * ((e.y - s.y) / rdist s e),
        (s.y + e.y) / 2 + Real.sqrt (r ^ 2 - (rdist s e / 2) ^ 2) * ((e.x - s.x) / rdist s e),
        s.z⟩) := by
  have hc2 := rdist_sq s e hz
  unfold circle_centers
  dsimp only
  have hx : RVec.cross (RVec.smul (1 / rdist s e) (RVec.sub e s)) zNorm
      = ⟨(e.y - s.y) / rdist s e, -((e.x - s.x) / rdist s e), 0⟩ := by
    ext <;> simp [RVec.cross, RVec.smul, RVec.sub, zNorm] <;> ring
  have hdot1 : RVec.dot ⟨(e.y - s.y) / rdist s e, -((e.x - s.x) / rdist s e), 0⟩
      ⟨(e.y - s.y) / rdist s e, -((e.x - s.x) / rdist s e), 0⟩ = 1 := by
    simp only [RVec.dot]
    field_simp
    linear_combination (-1 : ℝ) * hc2
  have hperp : RVec.normalize (RVec.cross (RVec.smul (1 / rdist s e) (RVec.sub e s)) zNorm)
      = ⟨(e.y - s.y) / rdist s e, -((e.x - s.x) / rdist s e), 0⟩ := by
    rw [RVec.normalize, hx, RVec.length, hdot1, Real.sqrt_one]
    ext <;> simp [RVec.smul]
  rw [hperp]
  simp only [Prod.mk.injEq]
  constructor <;> ext <;> simp [RVec.add, RVec.sub, RVec.smul, ← hz] <;> ring

end SH3D

namespace SH3D

set_option maxHeartbeats 1000000 in
lemma center_sign_facts (s e : RVec) (r : ℝ) (hz : s.z = e.z) (hc : rdist s e ≠ 0)
    (hr : rdist s e < 2 * r) :
    Real.sign (vangle (RVec.sub s (circle_centers s e r).1)
        (RVec.sub e (circle_centers s e r).1) zNorm) = -1
    ∧ Real.sign (vangle (RVec.sub s (circle_centers s e r).2)
        (RVec.sub e (circle_centers s e r).2) zNorm) = 1 := by
  have hcpos : 0 < rdist s e := lt_of_le_of_ne (rdist_nonneg s e) (Ne.symm hc)
  have hc2 := rdist_sq s e hz
  rw [circle_centers_eq s e r hz hc]
  dsimp only
  set c := rdist s e with hcdef
  have hh2 : 0 < r ^ 2 - (c / 2) ^ 2 := by nlinarith
  set h := Real.sqrt (r ^ 2 - (c / 2) ^ 2) with hhdef
  have hhpos : 0 < h := Real.sqrt_pos.mpr hh2
  have hcc : (0:ℝ) < h ^ 2 + c ^ 2 / 4 := by nlinarith [mul_pos hcpos hcpos, sq_nonneg h]
  clear_value c h
  have hsub : ((h ^ 2) / c ^ 2 - 1 / 4) * c ^ 2 = h ^ 2 - c ^ 2 / 4 := by
    field_simp
    ring
  have hsub2 : ((h ^ 2) / c ^ 2 + 1 / 4) * c ^ 2 = h ^ 2 + c ^ 2 / 4 := by
    field_simp
    ring
  constructor
  · set C0 : RVec := ⟨(s.x + e.x) / 2 + h * ((e.y - s.y) / c),
        (s.y + e.y) / 2 - h * ((e.x - s.x) / c), s.z⟩ with hC0
    have huv : RVec.dot (RVec.sub s C0) (RVec.sub e C0) = h ^ 2 - c ^ 2 / 4 := by
      have e1 : RVec.dot (RVec.sub s C0) (RVec.sub e C0)
          = ((h ^ 2) / c ^ 2 - 1 / 4) * ((e.x - s.x) ^ 2 + (e.y - s.y) ^ 2) := by
        simp only [RVec.dot, RVec.sub, hC0]
        ring
      rw [e1, ← hc2, hsub]
    have huu : RVec.dot (RVec.sub s C0) (RVec.sub s C0) = h ^ 2 + c ^ 2 / 4 := by
      have e1 : RVec.dot (RVec.sub s C0) (RVec.sub s C0)
          = ((h ^ 2) / c ^ 2 + 1 / 4) * ((e.x - s.x) ^ 2 + (e.y - s.y) ^ 2) := by
        simp only [RVec.dot, RVec.sub, hC0]
        ring
      rw [e1, ← hc2, hsub2]
    have hvv : RVec.dot (RVec.sub e C0) (RVec.sub e C0) = h ^ 2 + c ^ 2 / 4 := by
      have e1 : RVec.dot (RVec.sub e C0) (RVec.sub e C0)
          = ((h ^ 2) / c ^ 2 + 1 / 4) * ((e.x - s.x) ^ 2 + (e.y - s.y) ^ 2) := by
        simp only [RVec.dot, RVec.sub, hC0]
        rw [← hz]
        ring
      rw [e1, ← hc2, hsub2]
    have hl : (RVec.sub s C0).length * (RVec.sub e C0).length = h ^ 2 + c ^ 2 / 4 := by
      rw [RVec.length, RVec.length, huu, hvv,
        Real.mul_self_sqrt (le_of_lt hcc)]
    have hcross : RVec.dot zNorm (RVec.cross (RVec.sub s C0) (RVec.sub e C0)) = -(h / c)
        * ((e.x - s.x) ^ 2 + (e.y - s.y) ^ 2) := by
      simp only [RVec.dot, RVec.cross, RVec.sub, zNorm, hC0]
      ring
    have hcross2 : RVec.dot zNorm (RVec.cross (RVec.sub s C0) (RVec.sub e C0)) = -(h * c) := by
      rw [hcross, ← hc2]
      field_simp
      ring
    have hne1 : (RVec.sub s C0).length * (RVec.sub e C0).length ≠ 0 := by
      rw [hl]
      exact ne_of_gt hcc
    have hdp1 : RVec.dot (RVec.sub s C0) (RVec.sub e C0)
        / ((RVec.sub s C0).length * (RVec.sub e C0).length) < 1 := by
      rw [huv, hl, div_lt_one hcc]
      nlinarith [mul_pos hcpos hcpos]
    have hcr1 : ¬ 0 ≤ RVec.dot zNorm (RVec.cross (RVec.sub s C0) (RVec.sub e C0)) := by
      rw [hcross2]
      push_neg
      nlinarith [mul_pos hhpos hcpos]
    exact vangle_sign_neg _ _ _ hne1 hdp1 hcr1
  · set C1 : RVec := ⟨(s.x + e.x) / 2 - h * ((e.y - s.y) / c),
        (s.y + e.y) / 2 + h * ((e.x - s.x) / c), s.z⟩ with hC1
    have huv : RVec.dot (RVec.sub s C1) (RVec.sub e C1) = h ^ 2 - c ^ 2 / 4 := by
      have e1 : RVec.dot (RVec.sub s C1) (RVec.sub e C1)
          = ((h ^ 2) / c ^ 2 - 1 / 4) * ((e.x - s.x) ^ 2 + (e.y - s.y) ^ 2) := by
        simp only [RVec.dot, RVec.sub, hC1]
        ring
      rw [e1, ← hc2, hsub]
    have huu : RVec.dot (RVec.sub s C1) (RVec.sub s C1) = h ^ 2 + c ^ 2 / 4 := by
      have e1 : RVec.dot (RVec.sub s C1) (RVec.sub s C1)
          = ((h ^ 2) / c ^ 2 + 1 / 4) * ((e.x - s.x) ^ 2 + (e.y - s.y) ^ 2) := by
        simp only [RVec.dot, RVec.sub, hC1]
        ring
      rw [e1, ← hc2, hsub2]
    have hvv : RVec.dot (RVec.sub e C1) (RVec.sub e C1) = h ^ 2 + c ^ 2 / 4 := by
      have e1 : RVec.dot (RVec.sub e C1) (RVec.sub e C1)
          = ((h ^ 2) / c ^ 2 + 1 / 4) * ((e.x - s.x) ^ 2 + (e.y - s.y) ^ 2) := by
        simp only [RVec.dot, RVec.sub, hC1]
        rw [← hz]
        ring
      rw [e1, ← hc2, hsub2]
    have hl : (RVec.sub s C1).length * (RVec.sub e C1).length = h ^ 2 + c ^ 2 / 4 := by
      rw [RVec.length, RVec.length, huu, hvv,
        Real.mul_self_sqrt (le_of_lt hcc)]
    have hcross : RVec.dot zNorm (RVec.cross (RVec.sub s C1) (RVec.sub e C1)) = (h / c)
        * ((e.x - s.x) ^ 2 + (e.y - s.y) ^ 2) := by
      simp only [RVec.dot, RVec.cross, RVec.sub, zNorm, hC1]
      ring
    have hcross2 : RVec.dot zNorm (RVec.cross (RVec.sub s C1) (RVec.sub e C1)) = h * c := by
      rw [hcross, ← hc2]
      field_simp
      ring
    have hne1 : (RVec.sub s C1).length * (RVec.sub e C1).length ≠ 0 := by
      rw [hl]
      exact ne_of_gt hcc
    have hdp1 : RVec.dot (RVec.sub s C1) (RVec.sub e C1)
        / ((RVec.sub s C1).length * (RVec.sub e C1).length) < 1 := by
      rw [huv, hl, div_lt_one hcc]
      nlinarith [mul_pos hcpos hcpos]
    have hcr1 : 0 ≤ RVec.dot zNorm (RVec.cross (RVec.sub s C1) (RVec.sub e C1)) := by
      rw [hcross2]
      positivity
    exact vangle_sign_pos _ _ _ hne1 hdp1 hcr1

end SH3D

namespace SH3D

set_option maxHeartbeats 1000000 in
lemma selection_main (w : WallDetails) (harc : w.arc_extent ≠ 0)
    (hz : w.wstart.z = w.wend.z) (hc : rdist w.wstart w.wend ≠ 0)
    (hlt : rdist w.wstart w.wend
      < 2 * |rdist w.wstart w.wend / (2 * Real.sin (w.arc_extent / 2))|) :
    Real.sign (vangle (RVec.sub w.wstart (selected_center w))
        (RVec.sub w.wend (selected_center w)) zNorm)
      = Real.sign w.arc_extent := by
  have hfacts := center_sign_facts w.wstart w.wend
    (|rdist w.wstart w.wend / (2 * Real.sin (w.arc_extent / 2))|) hz hc hlt
  unfold selected_center get_normal_angles
  rw [if_neg harc]
  dsimp only
  split_ifs with hcond
  · simp only [Option.getD_some]
    rcases lt_trichotomy w.arc_extent 0 with hneg | hzero | hpos
    · exact absurd (by rw [Real.sign_of_neg hneg, hfacts.1]) hcond
    · exact absurd hzero harc
    · rw [hfacts.2, Real.sign_of_pos hpos]
  · simp only [Option.getD_some]
    rcases lt_trichotomy w.arc_extent 0 with hneg | hzero | hpos
    · rw [hfacts.1, Real.sign_of_neg hneg]
    · exact absurd hzero harc
    · push_neg at hcond
      rw [Real.sign_of_pos hpos, hfacts.1] at hcond
      norm_num at hcond

end SH3D

namespace SH3D

lemma example_wstart : example_wall.wstart = ⟨0, 0, 0⟩ := by
  unfold example_wall get_wall_details coord_sh2fcR dim_fc2shR
  ext <;> norm_num

lemma example_wend : example_wall.wend = ⟨1000, 0, 0⟩ := by
  unfold example_wall get_wall_details coord_sh2fcR dim_fc2shR
  ext <;> norm_num

lemma example_arc : example_wall.arc_extent = -(Real.pi / 2) := by
  unfold example_wall get_wall_details ang_sh2fcR
  norm_num

lemma example_arc_ne : example_wall.arc_extent ≠ 0 := by
  rw [example_arc]
  exact neg_ne_zero.mpr (div_ne_zero Real.pi_ne_zero two_ne_zero)

lemma example_z : example_wall.wstart.z = example_wall.wend.z := by
  rw [example_wstart, example_wend]

lemma example_chord : rdist example_wall.wstart example_wall.wend = 1000 := by
  rw [example_wstart, example_wend]
  unfold rdist RVec.length RVec.sub RVec.dot
  norm_num
  rw [show (1000000 : ℝ) = 1000 ^ 2 by norm_num, Real.sqrt_sq (by norm_num)]

lemma example_sin : Real.sin (example_wall.arc_extent / 2) = -(Real.sqrt 2 / 2) := by
  rw [example_arc, show -(Real.pi / 2) / 2 = -(Real.pi / 4) by ring, Real.sin_neg,
    Real.sin_pi_div_four]

lemma example_radius_val :
    |rdist example_wall.wstart example_wall.wend
      / (2 * Real.sin (example_wall.arc_extent / 2))| = 1000 / Real.sqrt 2 := by
  rw [example_chord, example_sin]
  rw [show (2 : ℝ) * -(Real.sqrt 2 / 2) = -(Real.sqrt 2) by ring]
  rw [div_neg, abs_neg, abs_of_nonneg (by positivity)]

lemma sqrt_two_lt_two : Real.sqrt 2 < 2 := by
  have h := Real.sqrt_lt_sqrt (by norm_num : (0 : ℝ) ≤ 2) (by norm_num : (2 : ℝ) < 4)
  rwa [show (4 : ℝ) = 2 ^ 2 by norm_num, Real.sqrt_sq (by norm_num)] at h

lemma example_chord_ne : rdist example_wall.wstart example_wall.wend ≠ 0 := by
  rw [example_chord]
  norm_num

lemma example_lt :
    rdist example_wall.wstart example_wall.wend
      < 2 * |rdist example_wall.wstart example_wall.wend
          / (2 * Real.sin (example_wall.arc_extent / 2))| := by
  rw [example_radius_val, example_chord]
  have hs : (0 : ℝ) < Real.sqrt 2 := Real.sqrt_pos.mpr (by norm_num)
  rw [show (2 : ℝ) * (1000 / Real.sqrt 2) = 2000 / Real.sqrt 2 by ring, lt_div_iff₀ hs]
  nlinarith [sqrt_two_lt_two]

/-- Claim C1: for a wall with non-zero arc extent the synthesizer computes
the spine circle radius as the absolute value of chord over twice the sine
of half the arc extent (equal to the claim's literal chord over 2 sin form
whenever that sine is positive), and of the two mirrored circle centers
through the endpoints it keeps the one for which the signed angle from
(start - center) to (end - center) about the vertical axis has the sign of
the arc extent; for the spec example with source start (0,0), end (100,0)
and arc extent pi over 2, the computed radius equals 100 over
(2 sin(pi/4)) in source units (the host value scaled by dim_sh2fc). -/
theorem C1_curved_wall_radius_and_center :
    (∀ w : WallDetails, w.arc_extent ≠ 0 →
      (get_normal_angles w).radius
        = some |rdist w.wstart w.wend / (2 * Real.sin (w.arc_extent / 2))|)
    ∧ (∀ w : WallDetails, w.arc_extent ≠ 0 → 0 < Real.sin (w.arc_extent / 2) →
      (get_normal_angles w).radius
        = some (rdist w.wstart w.wend / (2 * Real.sin (w.arc_extent / 2))))
    ∧ (∀ w : WallDetails, w.arc_extent ≠ 0 → w.wstart.z = w.wend.z →
        rdist w.wstart w.wend ≠ 0 →
        rdist w.wstart w.wend
          < 2 * |rdist w.wstart w.wend / (2 * Real.sin (w.arc_extent / 2))| →
        Real.sign (vangle (RVec.sub w.wstart (selected_center w))
            (RVec.sub w.wend (selected_center w)) zNorm)
          = Real.sign w.arc_extent)
    ∧ (get_normal_angles example_wall).radius
        = some (dim_sh2fcR (100 / (2 * Real.sin (Real.pi / 4)))) := by
  refine ⟨fun w h => radius_formula w h, fun w h hs => ?_, fun w h hz hc hlt =>
    selection_main w h hz hc hlt, ?_⟩
  · rw [radius_formula w h]
    congr 1
    exact abs_of_nonneg (div_nonneg (rdist_nonneg _ _) (by linarith))
  · rw [radius_formula example_wall example_arc_ne, example_radius_val,
      Real.sin_pi_div_four]
    unfold dim_sh2fcR
    rw [show (2 : ℝ) * (Real.sqrt 2 / 2) = Real.sqrt 2 by ring]
    rw [show (100 : ℝ) / Real.sqrt 2 * 10 = 1000 / Real.sqrt 2 by ring]

/-- Claim C1, witness: the hypotheses of the center-selection part hold at
the spec example wall, and the theorem instantiated there gives the sign
agreement for its selected center. -/
theorem C1_curved_wall_radius_and_center_witness :
    (example_wall.arc_extent ≠ 0
      ∧ example_wall.wstart.z = example_wall.wend.z
      ∧ rdist example_wall.wstart example_wall.wend ≠ 0
      ∧ rdist example_wall.wstart example_wall.wend
          < 2 * |rdist example_wall.wstart example_wall.wend
              / (2 * Real.sin (example_wall.arc_extent / 2))|)
    ∧ Real.sign (vangle (RVec.sub example_wall.wstart (selected_center example_wall))
        (RVec.sub example_wall.wend (selected_center example_wall)) zNorm)
      = Real.sign example_wall.arc_extent := by
  exact ⟨⟨example_arc_ne, example_z, example_chord_ne, example_lt⟩,
    C1_curved_wall_radius_and_center.2.2.1 example_wall
      example_arc_ne example_z example_chord_ne example_lt⟩

end SH3D
